import Mathlib

-- Verification of the fleet-server coordination core: the enrollment
-- orchestrator and the policy-leadership lease manager.  Go code is
-- shallowly embedded: collaborator calls (document store, cache,
-- credential issuer, admission limiter) become outcome parameters or
-- explicit state, Go errors become a dedicated inductive, a Go nil
-- pointer becomes Option, and a nil dereference is an explicit panic
-- outcome.

namespace FleetSpec

-- Distinct Go error values relevant to the embedded code paths.
inductive Err where
  | elasticNotFound
  | versionConflict
  | storeErr
  | unmarshalErr
  | limitErr
  | authErr
  | userAgentErr
  | recordInactive
  | unknownEnrollType
  | jsonSyntaxErr
  | preexistingUnsupported
  | mintErr
  | createErr
deriving DecidableEq, Repr

-- JSON values, for the local-metadata blobs.  Objects are ordered field
-- lists, as produced by a JSON document.
inductive Json where
  | null
  | bool (b : Bool)
  | num (n : Int)
  | str (s : String)
  | arr (xs : List Json)
  | obj (fields : List (String × Json))
deriving Repr

-- First binding of a key in an object, as a Go map lookup.
def lookupField (fs : List (String × Json)) (k : String) : Option Json :=
  match fs with
  | [] => none
  | (k2, v) :: rest => if k2 = k then some v else lookupField rest k

-- Replace the value bound to a key, keeping order and all other fields.
def setField (fs : List (String × Json)) (k : String) (v : Json) :
    List (String × Json) :=
  match fs with
  | [] => []
  | (k2, v2) :: rest =>
    if k2 = k then (k2, v) :: setField rest k v
    else (k2, v2) :: setField rest k v

-- model.ServerMetadata: the identity a lease records.
structure ServerMetadata where
  id : String
  version : String
deriving DecidableEq, Repr

-- model.PolicyLeader: the lease document.  The Go Server field is a
-- pointer and may be nil; time stands for the @timestamp field.
structure PolicyLeader where
  server : Option ServerMetadata
  time : Int
deriving DecidableEq, Repr

-- Outcome of bulker.Read on the leases index followed by the
-- not-found check: the document is absent, the read failed with some
-- other error, or it returned bytes that unmarshal to a lease (ok some)
-- or fail to unmarshal (ok none).
inductive ReadOutcome where
  | notFound
  | errOther (e : Err)
  | ok (doc : Option PolicyLeader)
deriving DecidableEq, Repr

-- Outcome of a bulker.Update call: success, a version conflict, or any
-- other store error.
inductive UpdateOutcome where
  | ok
  | versionConflict
  | errOther (e : Err)
deriving DecidableEq, Repr

-- Result of a lease operation.  panicNil marks a Go nil-pointer
-- dereference, which aborts the call rather than returning an error.
inductive LeaseResult where
  | success
  | failure (e : Err)
  | panicNil
deriving DecidableEq, Repr

-- A write the lease manager issued against the store.
inductive LeaderWrite where
  | create (doc : PolicyLeader)
  | update (doc : PolicyLeader)
deriving DecidableEq, Repr

def LeaderWrite.doc : LeaderWrite → PolicyLeader
  | .create d => d
  | .update d => d

-- TakePolicyLeadership, dl/policies_leader.go:66-107.  Reads the lease;
-- a non-not-found read error propagates; a failed unmarshal propagates;
-- otherwise the server identity and time are overwritten (installing a
-- fresh ServerMetadata when the pointer was nil) and the document is
-- updated when it existed, created when it did not.  The write outcome
-- propagates as-is: a version conflict is NOT converted to success here.
def TakePolicyLeadership (readRes : ReadOutcome) (writeRes : UpdateOutcome)
    (serverId version : String) (now : Int) :
    LeaseResult × List LeaderWrite :=
  match readRes with
  | .errOther e => (.failure e, [])
  | .notFound =>
    let l : PolicyLeader := { server := some ⟨serverId, version⟩, time := now }
    match writeRes with
    | .ok => (.success, [.create l])
    | .versionConflict => (.failure .versionConflict, [.create l])
    | .errOther e => (.failure e, [.create l])
  | .ok none => (.failure .unmarshalErr, [])
  | .ok (some _) =>
    let l : PolicyLeader := { server := some ⟨serverId, version⟩, time := now }
    match writeRes with
    | .ok => (.success, [.update l])
    | .versionConflict => (.failure .versionConflict, [.update l])
    | .errOther e => (.failure e, [.update l])

-- ReleasePolicyLeadership, dl/policies_leader.go:110-144.  A missing
-- document is success with no write; read and unmarshal errors
-- propagate; l.Server.Id is dereferenced with no nil guard, so a lease
-- whose server field is absent panics; a foreign server id is success
-- with no write; otherwise the time is rewound to now minus the release
-- interval and the document updated, a version conflict from that
-- update being success.
def ReleasePolicyLeadership (readRes : ReadOutcome) (writeRes : UpdateOutcome)
    (serverId : String) (releaseInterval now : Int) :
    LeaseResult × List LeaderWrite :=
  match readRes with
  | .notFound => (.success, [])
  | .errOther e => (.failure e, [])
  | .ok none => (.failure .unmarshalErr, [])
  | .ok (some l) =>
    match l.server with
    | none => (.panicNil, [])
    | some srv =>
      if srv.id ≠ serverId then (.success, [])
      else
        let l2 : PolicyLeader := { l with time := now - releaseInterval }
        match writeRes with
        | .ok => (.success, [.update l2])
        | .versionConflict => (.success, [.update l2])
        | .errOther e => (.failure e, [.update l2])

-- Modelled from the spec: the document-store client (an external
-- collaborator, create/read/update by id); a read returns the stored
-- document and a create or update stores the written document under the
-- policy id.
def LeaseStore := String → Option PolicyLeader

def readStore (s : LeaseStore) (policyId : String) : ReadOutcome :=
  match s policyId with
  | none => .notFound
  | some l => .ok (some l)

def applyWrites (s : LeaseStore) (policyId : String) (ws : List LeaderWrite) :
    LeaseStore :=
  match ws with
  | [] => s
  | w :: rest =>
    applyWrites (fun pid => if pid = policyId then some w.doc else s pid)
      policyId rest

-- One TakePolicyLeadership call against a live store, with the read
-- served from the store and all writes succeeding and applied.
def takeLeadershipStep (s : LeaseStore) (policyId serverId version : String)
    (now : Int) : LeaseResult × LeaseStore :=
  let r := TakePolicyLeadership (readStore s policyId) .ok serverId version now
  (r.1, applyWrites s policyId r.2)

-- model.EnrollmentApiKey: the pre-shared enrollment credential record.
structure EnrollmentApiKey where
  apiKeyId : String
  active : Bool
  policyId : String
  apiKey : String
deriving DecidableEq, Repr

-- Modelled from the spec: the credential issuer mints an opaque bearer
-- token plus an internal key id (apikey package, not in src).
structure ApiKey where
  id : String
  token : String
deriving DecidableEq, Repr

-- EnrollRequest.Meta: the two opaque metadata blobs of the request.
structure EnrollMetadata where
  user : Option Json
  localData : Option Json
deriving Repr

structure EnrollRequest where
  type : String
  sharedId : String
  meta : EnrollMetadata
deriving Repr

-- sqn.UndefinedSeqNo
def undefinedSeqNo : Int := -1

-- model.Agent, the fields the enrollment path populates.  The Go
-- composite literal in enroll sets exactly these; any field it omits
-- keeps the Go zero value.
structure Agent where
  active : Bool
  policyId : String
  type : String
  enrolledAt : Int
  userProvidedMetadata : Option Json
  localMetadata : Option Json
  accessApiKeyId : String
  actionSeqNo : List Int
deriving Repr

structure EnrollResponseItem where
  id : String
  active : Bool
  policyId : String
  type : String
  enrolledAt : Int
  userMeta : Option Json
  localMeta : Option Json
  accessApiKeyId : String
  accessApiKey : String
  status : String
deriving Repr

structure EnrollResponse where
  action : String
  item : EnrollResponseItem
deriving Repr

-- updateLocalMetaAgentId, part_000:249-277.  nil data passes through;
-- the JSON literal null unmarshals into a nil Go map, so every lookup
-- misses and the data comes back unchanged; other non-object data
-- fails to unmarshal into the map; when the nested path
-- elastic.agent.id exists the id is overwritten and the object
-- re-marshalled; any absent or wrongly shaped step of the path returns
-- the data unchanged.
def updateLocalMetaAgentId (data : Option Json) (agentId : String) :
    Except Err (Option Json) :=
  match data with
  | none => .ok none
  | some j =>
    match j with
    | .null => .ok (some Json.null)
    | .obj m =>
      match lookupField m "elastic" with
      | some (Json.obj sm) =>
        match lookupField sm "agent" with
        | some (Json.obj sm2) =>
          match lookupField sm2 "id" with
          | some _ =>
            .ok (some (Json.obj (setField m "elastic" (Json.obj
              (setField sm "agent" (Json.obj
                (setField sm2 "id" (Json.str agentId))))))))
          | none => .ok (some j)
        | _ => .ok (some j)
      | _ => .ok (some j)
    | _ => .error .unmarshalErr

-- What one _enroll call returned and did: the result, the agent
-- documents it asked the store to create, the access keys it cached,
-- and how many access credentials it asked the issuer to mint.
structure EnrollTrace where
  result : Except Err EnrollResponse
  agentWrites : List (String × Agent)
  cacheSets : List ApiKey
  mintCalls : Nat
deriving Repr

-- _enroll, part_000:154-221.  A non-empty shared id is rejected before
-- anything else; a fresh agent id genId is generated, the access
-- credential minted for it, the local metadata patched, the agent
-- record created, and the response built.  The Agent literal omits
-- UserProvidedMetadata, which therefore keeps the Go zero value.
def _enroll (genId : String) (mintRes : Except Err ApiKey)
    (createRes : Except Err Unit) (now : Int)
    (req : EnrollRequest) (erec : EnrollmentApiKey) : EnrollTrace :=
  if req.sharedId ≠ "" then
    { result := .error .preexistingUnsupported, agentWrites := [],
      cacheSets := [], mintCalls := 0 }
  else
    match mintRes with
    | .error e =>
      { result := .error e, agentWrites := [], cacheSets := [], mintCalls := 1 }
    | .ok accessApiKey =>
      match updateLocalMetaAgentId req.meta.localData genId with
      | .error e =>
        { result := .error e, agentWrites := [], cacheSets := [], mintCalls := 1 }
      | .ok localMeta =>
        let agentData : Agent :=
          { active := true
            policyId := erec.policyId
            type := req.type
            enrolledAt := now
            userProvidedMetadata := none
            localMetadata := localMeta
            accessApiKeyId := accessApiKey.id
            actionSeqNo := [undefinedSeqNo] }
        match createRes with
        | .error e =>
          { result := .error e, agentWrites := [(genId, agentData)],
            cacheSets := [], mintCalls := 1 }
        | .ok _ =>
          let resp : EnrollResponse :=
            { action := "created"
              item :=
                { id := genId
                  active := agentData.active
                  policyId := agentData.policyId
                  type := agentData.type
                  enrolledAt := agentData.enrolledAt
                  userMeta := agentData.userProvidedMetadata
                  localMeta := agentData.localMetadata
                  accessApiKeyId := agentData.accessApiKeyId
                  accessApiKey := accessApiKey.token
                  status := "online" } }
          { result := .ok resp, agentWrites := [(genId, agentData)],
            cacheSets := [accessApiKey], mintCalls := 1 }

-- Modelled from the spec: the TTL cache for enrollment credentials
-- (internal/pkg/cache wrapping a TTL and cost aware cache, not in
-- src).  An entry is visible while the current time is before its
-- expiry; a set installs an entry expiring after its TTL and records
-- the cost for capacity accounting.
structure CacheEntry where
  record : EnrollmentApiKey
  cost : Int
  expiresAt : Int
deriving DecidableEq, Repr

abbrev CacheT := List (String × CacheEntry)

def cacheGet (c : CacheT) (id : String) : Option CacheEntry :=
  match c with
  | [] => none
  | (k, e) :: rest => if k = id then some e else cacheGet rest id

def getEnrollmentApiKey (c : CacheT) (now : Int) (id : String) :
    Option EnrollmentApiKey :=
  match cacheGet c id with
  | none => none
  | some e => if now < e.expiresAt then some e.record else none

def setEnrollmentApiKey (c : CacheT) (now : Int) (id : String)
    (rec : EnrollmentApiKey) (cost ttl : Int) : CacheT :=
  (id, { record := rec, cost := cost, expiresAt := now + ttl }) :: c

-- kCacheEnrollmentTTL = 30 seconds.
def kCacheEnrollmentTTL : Int := 30

structure FetchTrace where
  result : Except Err EnrollmentApiKey
  cache : CacheT
  storeReads : Nat
deriving Repr

-- fetchEnrollmentKeyRecord, part_000:303-323.  The cache is consulted
-- first; a hit returns without touching the store.  On a miss the
-- record is read from the store; an inactive record is a hard failure
-- and is not cached; an active record is cached with cost equal to the
-- length of its ApiKey value and the enrollment TTL.
def fetchEnrollmentKeyRecord (c : CacheT) (now : Int)
    (storeRes : Except Err EnrollmentApiKey) (id : String) : FetchTrace :=
  match getEnrollmentApiKey c now id with
  | some key => { result := .ok key, cache := c, storeReads := 0 }
  | none =>
    match storeRes with
    | .error e => { result := .error e, cache := c, storeReads := 1 }
    | .ok rec =>
      if !rec.active then
        { result := .error .recordInactive, cache := c, storeReads := 1 }
      else
        { result := .ok rec
          cache := setEnrollmentApiKey c now id rec (rec.apiKey.length : Int)
            kCacheEnrollmentTTL
          storeReads := 1 }

-- A request body: either bytes the JSON decoder rejects, or bytes that
-- decode to an EnrollRequest.
inductive Body where
  | malformed
  | wellFormed (req : EnrollRequest)

-- decodeEnrollRequest, part_000:325-343.  A decode failure returns the
-- decoder error as-is; a decoded request whose Type is outside the
-- three enrollment types fails with ErrUnknownEnrollType.
def decodeEnrollRequest (data : Body) : Except Err EnrollRequest :=
  match data with
  | .malformed => .error .jsonSyntaxErr
  | .wellFormed req =>
    if req.type = "EPHEMERAL" ∨ req.type = "PERMANENT" ∨ req.type = "TEMPORARY"
    then .ok req
    else .error .unknownEnrollType

-- Collaborator calls one handleEnroll run performed, plus the limiter
-- slot accounting.
structure Effects where
  acquired : Nat
  released : Nat
  authCalls : Nat
  storeReads : Nat
  storeWrites : Nat
  mints : Nat
  cacheWrites : Nat
deriving DecidableEq, Repr

def zeroEffects : Effects :=
  { acquired := 0, released := 0, authCalls := 0, storeReads := 0,
    storeWrites := 0, mints := 0, cacheWrites := 0 }

-- The steps of handleEnroll after the limiter slot was acquired:
-- authenticate the API key, validate the user agent, resolve the
-- enrollment record, decode the body, run _enroll, marshal the
-- response.  Each failing step returns its error at once.
def handleEnrollSteps (authRes vuaRes : Except Err Unit) (c : CacheT)
    (now : Int) (keyId : String) (storeRes : Except Err EnrollmentApiKey)
    (data : Body) (genId : String) (mintRes : Except Err ApiKey)
    (createRes : Except Err Unit) :
    Except Err EnrollResponse × Effects × CacheT :=
  match authRes with
  | .error e => (.error e, { zeroEffects with authCalls := 1 }, c)
  | .ok _ =>
    match vuaRes with
    | .error e => (.error e, { zeroEffects with authCalls := 1 }, c)
    | .ok _ =>
      let fr := fetchEnrollmentKeyRecord c now storeRes keyId
      match fr.result with
      | .error e =>
        (.error e,
         { zeroEffects with authCalls := 1, storeReads := fr.storeReads },
         fr.cache)
      | .ok erec =>
        match decodeEnrollRequest data with
        | .error e =>
          (.error e,
           { zeroEffects with authCalls := 1, storeReads := fr.storeReads },
           fr.cache)
        | .ok req =>
          let er := _enroll genId mintRes createRes now req erec
          (er.result,
           { zeroEffects with
             authCalls := 1
             storeReads := fr.storeReads
             storeWrites := er.agentWrites.length
             mints := er.mintCalls
             cacheWrites := er.cacheSets.length },
           fr.cache)

-- handleEnroll, part_000:108-152.  Modelled from the spec for the
-- admission limiter (internal/pkg/limit, not in src): Acquire yields a
-- release handle or a load-shedding error.  An acquire failure returns
-- before any other step runs; after a successful acquire the deferred
-- release runs on every exit path of the remaining steps, translated
-- here by attaching the release to every return of handleEnrollSteps.
def handleEnroll (acquireOk : Bool) (authRes vuaRes : Except Err Unit)
    (c : CacheT) (now : Int) (keyId : String)
    (storeRes : Except Err EnrollmentApiKey) (data : Body) (genId : String)
    (mintRes : Except Err ApiKey) (createRes : Except Err Unit) :
    Except Err EnrollResponse × Effects × CacheT :=
  if acquireOk then
    let r := handleEnrollSteps authRes vuaRes c now keyId storeRes data genId
      mintRes createRes
    (r.1, { r.2.1 with acquired := 1, released := 1 }, r.2.2)
  else
    (.error .limitErr, zeroEffects, c)

-- Helper lemmas.

-- A field other than the replaced one reads the same after setField.
theorem lookupField_setField_ne (fs : List (String × Json)) (key : String)
    (v : Json) (k2 : String) (h : k2 ≠ key) :
    lookupField (setField fs key v) k2 = lookupField fs k2 := by
  induction fs with
  | nil => rfl
  | cons p rest ih =>
    obtain ⟨k3, v3⟩ := p
    by_cases hk : k3 = key
    · have hk2 : ¬ k3 = k2 := fun hx => h (hx ▸ hk)
      simp only [setField, if_pos hk, lookupField, if_neg hk2]
      exact ih
    · by_cases hx : k3 = k2
      · simp only [setField, if_neg hk, lookupField, if_pos hx]
      · simp only [setField, if_neg hk, lookupField, if_neg hx]
        exact ih

-- The replaced field reads the new value when it was present.
theorem lookupField_setField_eq (fs : List (String × Json)) (key : String)
    (v w : Json) (h : lookupField fs key = some w) :
    lookupField (setField fs key v) key = some v := by
  induction fs with
  | nil => simp [lookupField] at h
  | cons p rest ih =>
    obtain ⟨k3, v3⟩ := p
    by_cases hk : k3 = key
    · simp only [setField, if_pos hk, lookupField]
    · simp only [lookupField, if_neg hk] at h
      simp only [setField, if_neg hk, lookupField]
      exact ih h

-- Any takeLeadershipStep succeeds and leaves the lease for the policy
-- id holding the given server identity and time, whether the document
-- existed before or not.
theorem takeLeadershipStep_sets (s : LeaseStore)
    (policyId serverId version : String) (now : Int) :
    (takeLeadershipStep s policyId serverId version now).1 = .success ∧
    (takeLeadershipStep s policyId serverId version now).2 policyId
      = some ⟨some ⟨serverId, version⟩, now⟩ := by
  cases h : s policyId <;>
    simp [takeLeadershipStep, readStore, TakePolicyLeadership, applyWrites,
      LeaderWrite.doc, h]

-- Claim theorems.

/-- C1: ReleasePolicyLeadership returns success with no write when the
lease document is absent; returns success with no write when the stored
server id differs from the caller; otherwise rewinds the lease time to
now minus the release interval and updates the document, a version
conflict from that update being success; and it propagates any other
read, unmarshal, or update error. -/
theorem releasePolicyLeadership_spec (writeRes : UpdateOutcome)
    (serverId : String) (releaseInterval now t : Int)
    (srv : ServerMetadata) (e : Err) :
    (ReleasePolicyLeadership .notFound writeRes serverId releaseInterval now
      = (.success, [])) ∧
    (srv.id ≠ serverId →
      ReleasePolicyLeadership (.ok (some ⟨some srv, t⟩)) writeRes serverId
          releaseInterval now
        = (.success, [])) ∧
    (srv.id = serverId →
      ReleasePolicyLeadership (.ok (some ⟨some srv, t⟩)) .ok serverId
          releaseInterval now
        = (.success, [.update ⟨some srv, now - releaseInterval⟩])) ∧
    (srv.id = serverId →
      ReleasePolicyLeadership (.ok (some ⟨some srv, t⟩)) .versionConflict
          serverId releaseInterval now
        = (.success, [.update ⟨some srv, now - releaseInterval⟩])) ∧
    (ReleasePolicyLeadership (.errOther e) writeRes serverId releaseInterval
        now
      = (.failure e, [])) ∧
    (ReleasePolicyLeadership (.ok none) writeRes serverId releaseInterval now
      = (.failure .unmarshalErr, [])) ∧
    (srv.id = serverId →
      ReleasePolicyLeadership (.ok (some ⟨some srv, t⟩)) (.errOther e)
          serverId releaseInterval now
        = (.failure e, [.update ⟨some srv, now - releaseInterval⟩])) := by
  refine ⟨rfl, ?_, ?_, ?_, rfl, rfl, ?_⟩ <;> intro h <;>
    simp [ReleasePolicyLeadership, h]

/-- C1 witness: a foreign lease is left alone with success, and a
version conflict while releasing an owned lease is success with the
rewound document in the attempted update. -/
theorem releasePolicyLeadership_spec_witness :
    (ReleasePolicyLeadership (.ok (some ⟨some ⟨"srvB", "1"⟩, 7⟩)) .ok "srvA"
        5 100
      = (.success, [])) ∧
    (ReleasePolicyLeadership (.ok (some ⟨some ⟨"srvA", "1"⟩, 7⟩))
        .versionConflict "srvA" 5 100
      = (.success, [.update ⟨some ⟨"srvA", "1"⟩, 95⟩])) :=
  ⟨(releasePolicyLeadership_spec .ok "srvA" 5 100 7 ⟨"srvB", "1"⟩
      .storeErr).2.1 (by decide),
   (releasePolicyLeadership_spec .versionConflict "srvA" 5 100 7
      ⟨"srvA", "1"⟩ .storeErr).2.2.2.1 rfl⟩

/-- C2: TakePolicyLeadership creates a fresh lease with the given server
identity and current time when the document is absent, overwrites the
identity and time via an update with no version-conflict special-case
when it is present (a conflict outcome propagates as a plain failure),
and consequently a second take from a different server id overwrites the
stored lease to identify that server. -/
theorem takePolicyLeadership_spec (s : LeaseStore)
    (policyId serverId serverId2 version version2 : String)
    (t1 t2 now : Int) (l0 : PolicyLeader) :
    (TakePolicyLeadership .notFound .ok serverId version now
      = (.success, [.create ⟨some ⟨serverId, version⟩, now⟩])) ∧
    (TakePolicyLeadership (.ok (some l0)) .ok serverId version now
      = (.success, [.update ⟨some ⟨serverId, version⟩, now⟩])) ∧
    (TakePolicyLeadership (.ok (some l0)) .versionConflict serverId version
        now
      = (.failure .versionConflict,
         [.update ⟨some ⟨serverId, version⟩, now⟩])) ∧
    ((takeLeadershipStep s policyId serverId version t1).1 = .success ∧
     (takeLeadershipStep s policyId serverId version t1).2 policyId
       = some ⟨some ⟨serverId, version⟩, t1⟩) ∧
    ((takeLeadershipStep
        ((takeLeadershipStep s policyId serverId version t1).2)
        policyId serverId2 version2 t2).1 = .success ∧
     (takeLeadershipStep
        ((takeLeadershipStep s policyId serverId version t1).2)
        policyId serverId2 version2 t2).2 policyId
       = some ⟨some ⟨serverId2, version2⟩, t2⟩) :=
  ⟨rfl, rfl, rfl, takeLeadershipStep_sets s policyId serverId version t1,
   takeLeadershipStep_sets _ policyId serverId2 version2 t2⟩

/-- C9: a lease document that reads and unmarshals fine but whose server
field is absent makes ReleasePolicyLeadership dereference a nil pointer
at the server-id comparison: the call aborts with a panic rather than
returning success or a propagated error. -/
theorem releasePolicyLeadership_nilServer_panics :
    ReleasePolicyLeadership (.ok (some { server := none, time := 3 })) .ok
        "srvA" 5 100
      = (.panicNil, []) ∧
    (LeaseResult.panicNil = LeaseResult.success → False) :=
  ⟨rfl, fun h => by cases h⟩

/-- C3: with an empty shared id, a valid enrollment type, an active
credential and every collaborator succeeding, the enrollment response
carries the freshly generated agent id (distinct from the credential
id), status online, action created, and the policy id of the credential
and type of the request. -/
theorem enroll_success_spec (genId : String) (k : ApiKey) (now : Int)
    (req : EnrollRequest) (erec : EnrollmentApiKey) (lm : Option Json)
    (h1 : req.sharedId = "")
    (h2 : req.type = "EPHEMERAL" ∨ req.type = "PERMANENT" ∨
      req.type = "TEMPORARY")
    (h3 : erec.active = true)
    (h4 : genId ≠ erec.apiKeyId)
    (h5 : updateLocalMetaAgentId req.meta.localData genId = .ok lm) :
    ∃ resp, (_enroll genId (.ok k) (.ok ()) now req erec).result
        = .ok resp ∧
      resp.item.id = genId ∧ resp.item.id ≠ erec.apiKeyId ∧
      resp.item.status = "online" ∧ resp.action = "created" ∧
      resp.item.policyId = erec.policyId ∧ resp.item.type = req.type := by
  refine ⟨⟨"created", ⟨genId, true, erec.policyId, req.type, now, none, lm,
    k.id, k.token, "online"⟩⟩, ?_, rfl, h4, rfl, rfl, rfl, rfl⟩
  simp [_enroll, h1, h5]

/-- C3 witness: a concrete successful enrollment. -/
theorem enroll_success_spec_witness :
    ∃ resp, (_enroll "agent-1" (.ok ⟨"ak", "tok"⟩) (.ok ()) 0
        ⟨"PERMANENT", "", ⟨none, none⟩⟩
        ⟨"ek", true, "p1", "s"⟩).result = .ok resp ∧
      resp.item.id = "agent-1" ∧ resp.item.id ≠ "ek" ∧
      resp.item.status = "online" ∧ resp.action = "created" ∧
      resp.item.policyId = "p1" ∧ resp.item.type = "PERMANENT" :=
  enroll_success_spec "agent-1" ⟨"ak", "tok"⟩ 0
    ⟨"PERMANENT", "", ⟨none, none⟩⟩ ⟨"ek", true, "p1", "s"⟩ none rfl
    (Or.inr (Or.inl rfl)) rfl (by decide) rfl

/-- C4 counterexample: a concrete successful enrollment whose request
carries a user-provided metadata blob produces a response whose
user-metadata field is none, not the request blob: the Agent literal in
the code never populates UserProvidedMetadata. -/
theorem enroll_userMeta_dropped_cex :
    ((_enroll "agent-1" (.ok ⟨"ak", "tok"⟩) (.ok ()) 0
        ⟨"PERMANENT", "", ⟨some (Json.obj [("tag", Json.str "v")]), none⟩⟩
        ⟨"ek", true, "p1", "s"⟩).result.map (fun r => r.item.userMeta)
      = .ok none) ∧
    ((none : Option Json) = some (Json.obj [("tag", Json.str "v")]) →
      False) :=
  ⟨rfl, fun h => by cases h⟩

/-- C4 (amended): on a successful enrollment the response local-metadata
field equals the patched local metadata blob, while the user-metadata
field equals none, the zero value of the agent record field, regardless
of the user blob supplied in the request. -/
theorem enroll_metadata_spec (genId : String) (k : ApiKey) (now : Int)
    (req : EnrollRequest) (erec : EnrollmentApiKey) (lm : Option Json)
    (h1 : req.sharedId = "")
    (h5 : updateLocalMetaAgentId req.meta.localData genId = .ok lm) :
    ∃ resp, (_enroll genId (.ok k) (.ok ()) now req erec).result
        = .ok resp ∧
      resp.item.localMeta = lm ∧ resp.item.userMeta = none := by
  refine ⟨⟨"created", ⟨genId, true, erec.policyId, req.type, now, none, lm,
    k.id, k.token, "online"⟩⟩, ?_, rfl, rfl⟩
  simp [_enroll, h1, h5]

/-- C4 witness: the amended claim at a concrete request that does carry
a user metadata blob. -/
theorem enroll_metadata_spec_witness :
    ∃ resp, (_enroll "agent-2" (.ok ⟨"ak", "tok"⟩) (.ok ()) 0
        ⟨"PERMANENT", "", ⟨some (Json.obj [("tag", Json.str "w")]), none⟩⟩
        ⟨"ek2", true, "p1", "s"⟩).result = .ok resp ∧
      resp.item.localMeta = none ∧ resp.item.userMeta = none :=
  enroll_metadata_spec "agent-2" ⟨"ak", "tok"⟩ 0
    ⟨"PERMANENT", "", ⟨some (Json.obj [("tag", Json.str "w")]), none⟩⟩
    ⟨"ek2", true, "p1", "s"⟩ none rfl rfl

/-- C5 counterexample: a malformed body fails with the JSON decoder
error, a different error value from the unknown-enroll-type error. -/
theorem decodeEnrollRequest_malformed_cex :
    decodeEnrollRequest .malformed = .error .jsonSyntaxErr ∧
    Err.jsonSyntaxErr ≠ Err.unknownEnrollType :=
  ⟨rfl, by decide⟩

/-- C5 (amended): a well-formed body whose enrollment type is outside
EPHEMERAL, PERMANENT, TEMPORARY fails with the unknown-enroll-type
error; a malformed body fails with the decoder error, which is distinct
from it; and whenever decoding fails the pipeline mints no identity or
credential and issues no store write. -/
theorem decodeEnrollRequest_spec (req : EnrollRequest) (e : Err)
    (authRes vuaRes : Except Err Unit) (c : CacheT) (now : Int)
    (keyId : String) (storeRes : Except Err EnrollmentApiKey) (data : Body)
    (genId : String) (mintRes : Except Err ApiKey)
    (createRes : Except Err Unit) :
    (¬(req.type = "EPHEMERAL" ∨ req.type = "PERMANENT" ∨
        req.type = "TEMPORARY") →
      decodeEnrollRequest (.wellFormed req) = .error .unknownEnrollType) ∧
    (decodeEnrollRequest .malformed = .error .jsonSyntaxErr ∧
      Err.jsonSyntaxErr ≠ Err.unknownEnrollType) ∧
    (decodeEnrollRequest data = .error e →
      (handleEnroll true authRes vuaRes c now keyId storeRes data genId
          mintRes createRes).2.1.mints = 0 ∧
      (handleEnroll true authRes vuaRes c now keyId storeRes data genId
          mintRes createRes).2.1.storeWrites = 0) := by
  refine ⟨?_, ⟨rfl, by decide⟩, ?_⟩
  · intro h
    simp only [decodeEnrollRequest]
    rw [if_neg h]
  · intro hd
    cases authRes with
    | error e2 => simp [handleEnroll, handleEnrollSteps, zeroEffects]
    | ok u =>
      cases vuaRes with
      | error e2 => simp [handleEnroll, handleEnrollSteps, zeroEffects]
      | ok u2 =>
        cases hfr : (fetchEnrollmentKeyRecord c now storeRes keyId).result
          with
        | error e2 =>
          simp [handleEnroll, handleEnrollSteps, hfr, zeroEffects]
        | ok erec =>
          cases hdec : decodeEnrollRequest data with
          | error e3 =>
            simp [handleEnroll, handleEnrollSteps, hfr, hdec, zeroEffects]
          | ok req2 =>
            rw [hdec] at hd
            exact absurd hd (by simp)

/-- C5 witness: the BOGUS type fails with the unknown-enroll-type
error, and a malformed body leaves the pipeline with zero mints and
zero store writes. -/
theorem decodeEnrollRequest_spec_witness :
    decodeEnrollRequest (.wellFormed ⟨"BOGUS", "", ⟨none, none⟩⟩)
      = .error .unknownEnrollType ∧
    (handleEnroll true (.ok ()) (.ok ()) [] 0 "ek" (.error .storeErr)
        .malformed "agent-1" (.error .mintErr) (.ok ())).2.1.mints = 0 ∧
    (handleEnroll true (.ok ()) (.ok ()) [] 0 "ek" (.error .storeErr)
        .malformed "agent-1" (.error .mintErr) (.ok ())).2.1.storeWrites
      = 0 :=
  ⟨(decodeEnrollRequest_spec ⟨"BOGUS", "", ⟨none, none⟩⟩ .jsonSyntaxErr
      (.ok ()) (.ok ()) [] 0 "ek" (.error .storeErr) .malformed "agent-1"
      (.error .mintErr) (.ok ())).1 (by decide),
   ((decodeEnrollRequest_spec ⟨"BOGUS", "", ⟨none, none⟩⟩ .jsonSyntaxErr
      (.ok ()) (.ok ()) [] 0 "ek" (.error .storeErr) .malformed "agent-1"
      (.error .mintErr) (.ok ())).2.2 rfl).1,
   ((decodeEnrollRequest_spec ⟨"BOGUS", "", ⟨none, none⟩⟩ .jsonSyntaxErr
      (.ok ()) (.ok ()) [] 0 "ek" (.error .storeErr) .malformed "agent-1"
      (.error .mintErr) (.ok ())).2.2 rfl).2⟩

/-- C6 counterexample: a local-metadata blob that is valid JSON but not
an object (here a JSON string) fails to unmarshal into the Go map, so
the call returns an error instead of the input unchanged. -/
theorem updateLocalMetaAgentId_nonObject_cex :
    updateLocalMetaAgentId (some (Json.str "oops")) "NEW"
      = .error .unmarshalErr ∧
    ((Except.error Err.unmarshalErr : Except Err (Option Json))
        = .ok (some (Json.str "oops")) → False) :=
  ⟨rfl, fun h => by cases h⟩

/-- C6 (amended): updateLocalMetaAgentId passes absent data through; on
an object blob containing the nested path elastic.agent.id it replaces
exactly that field (setField keeps every other key reading the same
value and makes the replaced key read the new value); on an object blob
where any step of the path is absent or wrongly shaped it returns the
blob unchanged; a null blob unmarshals into a nil map and is returned
unchanged; a blob that is valid JSON but neither an object nor null
fails with the unmarshal error. -/
theorem updateLocalMetaAgentId_spec (agentId : String)
    (m sm sm2 : List (String × Json)) (w v1 j : Json) :
    (updateLocalMetaAgentId none agentId = .ok none) ∧
    (lookupField m "elastic" = some (Json.obj sm) →
      lookupField sm "agent" = some (Json.obj sm2) →
      lookupField sm2 "id" = some w →
      updateLocalMetaAgentId (some (Json.obj m)) agentId
        = .ok (some (Json.obj (setField m "elastic" (Json.obj
            (setField sm "agent" (Json.obj
              (setField sm2 "id" (Json.str agentId))))))))) ∧
    (∀ fs key v k2, k2 ≠ key →
      lookupField (setField fs key v) k2 = lookupField fs k2) ∧
    (∀ fs key v w2, lookupField fs key = some w2 →
      lookupField (setField fs key v) key = some v) ∧
    (lookupField m "elastic" = none →
      updateLocalMetaAgentId (some (Json.obj m)) agentId
        = .ok (some (Json.obj m))) ∧
    (lookupField m "elastic" = some v1 → (∀ fs, v1 ≠ Json.obj fs) →
      updateLocalMetaAgentId (some (Json.obj m)) agentId
        = .ok (some (Json.obj m))) ∧
    (lookupField m "elastic" = some (Json.obj sm) →
      lookupField sm "agent" = none →
      updateLocalMetaAgentId (some (Json.obj m)) agentId
        = .ok (some (Json.obj m))) ∧
    (lookupField m "elastic" = some (Json.obj sm) →
      lookupField sm "agent" = some v1 → (∀ fs, v1 ≠ Json.obj fs) →
      updateLocalMetaAgentId (some (Json.obj m)) agentId
        = .ok (some (Json.obj m))) ∧
    (lookupField m "elastic" = some (Json.obj sm) →
      lookupField sm "agent" = some (Json.obj sm2) →
      lookupField sm2 "id" = none →
      updateLocalMetaAgentId (some (Json.obj m)) agentId
        = .ok (some (Json.obj m))) ∧
    (updateLocalMetaAgentId (some Json.null) agentId
      = .ok (some Json.null)) ∧
    (j ≠ Json.null → (∀ fs, j ≠ Json.obj fs) →
      updateLocalMetaAgentId (some j) agentId = .error .unmarshalErr) := by
  refine ⟨rfl, ?_, lookupField_setField_ne, lookupField_setField_eq, ?_,
    ?_, ?_, ?_, ?_, rfl, ?_⟩
  · intro h1 h2 h3
    simp [updateLocalMetaAgentId, h1, h2, h3]
  · intro h1
    simp [updateLocalMetaAgentId, h1]
  · intro h1 h2
    cases v1 with
    | obj fs => exact absurd rfl (h2 fs)
    | null => simp [updateLocalMetaAgentId, h1]
    | bool b => simp [updateLocalMetaAgentId, h1]
    | num n => simp [updateLocalMetaAgentId, h1]
    | str s => simp [updateLocalMetaAgentId, h1]
    | arr xs => simp [updateLocalMetaAgentId, h1]
  · intro h1 h2
    simp [updateLocalMetaAgentId, h1, h2]
  · intro h1 h2 h3
    cases v1 with
    | obj fs => exact absurd rfl (h3 fs)
    | null => simp [updateLocalMetaAgentId, h1, h2]
    | bool b => simp [updateLocalMetaAgentId, h1, h2]
    | num n => simp [updateLocalMetaAgentId, h1, h2]
    | str s => simp [updateLocalMetaAgentId, h1, h2]
    | arr xs => simp [updateLocalMetaAgentId, h1, h2]
  · intro h1 h2 h3
    simp [updateLocalMetaAgentId, h1, h2, h3]
  · intro hnull h1
    cases j with
    | null => exact absurd rfl hnull
    | obj fs => exact absurd rfl (h1 fs)
    | bool b => rfl
    | num n => rfl
    | str s => rfl
    | arr xs => rfl

/-- C6 witness: the spec example, with a sibling field next to the id
and a second top-level field, patched to the new id with everything
else unchanged. -/
theorem updateLocalMetaAgentId_spec_witness :
    updateLocalMetaAgentId
        (some (Json.obj [("elastic", Json.obj [("agent", Json.obj
          [("id", Json.str "OLD"), ("snapshot", Json.bool false)])]),
          ("host", Json.str "h1")])) "NEW"
      = .ok (some (Json.obj [("elastic", Json.obj [("agent", Json.obj
          [("id", Json.str "NEW"), ("snapshot", Json.bool false)])]),
          ("host", Json.str "h1")])) :=
  (updateLocalMetaAgentId_spec "NEW"
    [("elastic", Json.obj [("agent", Json.obj
      [("id", Json.str "OLD"), ("snapshot", Json.bool false)])]),
      ("host", Json.str "h1")]
    [("agent", Json.obj [("id", Json.str "OLD"),
      ("snapshot", Json.bool false)])]
    [("id", Json.str "OLD"), ("snapshot", Json.bool false)]
    (Json.str "OLD") Json.null Json.null).2.1 rfl rfl rfl

/-- C7: fetchEnrollmentKeyRecord serves a cache hit without a store
read; on a miss an inactive store record is a hard failure and is not
cached; an active record is returned and cached with the enrollment TTL
and a cost equal to the length of the credential value; hence a second
resolution of the same id before the TTL expires issues no store read
and returns the record. -/
theorem fetchEnrollmentKeyRecord_spec (c : CacheT) (now t2 : Int)
    (id : String) (storeRes storeRes2 : Except Err EnrollmentApiKey)
    (rec key : EnrollmentApiKey) :
    (getEnrollmentApiKey c now id = some key →
      fetchEnrollmentKeyRecord c now storeRes id
        = ⟨.ok key, c, 0⟩) ∧
    (getEnrollmentApiKey c now id = none → rec.active = false →
      fetchEnrollmentKeyRecord c now (.ok rec) id
        = ⟨.error .recordInactive, c, 1⟩) ∧
    (getEnrollmentApiKey c now id = none → rec.active = true →
      fetchEnrollmentKeyRecord c now (.ok rec) id
        = ⟨.ok rec,
           (id, ⟨rec, (rec.apiKey.length : Int),
             now + kCacheEnrollmentTTL⟩) :: c, 1⟩) ∧
    (getEnrollmentApiKey c now id = none → rec.active = true →
      t2 < now + kCacheEnrollmentTTL →
      (fetchEnrollmentKeyRecord
          (fetchEnrollmentKeyRecord c now (.ok rec) id).cache t2 storeRes2
          id).storeReads = 0 ∧
      (fetchEnrollmentKeyRecord
          (fetchEnrollmentKeyRecord c now (.ok rec) id).cache t2 storeRes2
          id).result = .ok rec) := by
  refine ⟨?_, ?_, ?_, ?_⟩
  · intro h
    simp [fetchEnrollmentKeyRecord, h]
  · intro h h2
    simp [fetchEnrollmentKeyRecord, h, h2]
  · intro h h2
    simp [fetchEnrollmentKeyRecord, setEnrollmentApiKey, h, h2]
  · intro h h2 hlt
    have hc : (fetchEnrollmentKeyRecord c now (.ok rec) id).cache
        = (id, ⟨rec, (rec.apiKey.length : Int),
            now + kCacheEnrollmentTTL⟩) :: c := by
      simp [fetchEnrollmentKeyRecord, setEnrollmentApiKey, h, h2]
    rw [hc]
    have hg : getEnrollmentApiKey
        ((id, ⟨rec, (rec.apiKey.length : Int),
          now + kCacheEnrollmentTTL⟩) :: c) t2 id = some rec := by
      simp [getEnrollmentApiKey, cacheGet, hlt]
    constructor <;> simp [fetchEnrollmentKeyRecord, hg]

/-- C7 witness: a miss at time 0 populates the cache; a second
resolution at time 29, inside the 30 second TTL, issues no store read
and returns the record even though the store would now fail. -/
theorem fetchEnrollmentKeyRecord_spec_witness :
    (fetchEnrollmentKeyRecord
        (fetchEnrollmentKeyRecord [] 0 (.ok ⟨"ek", true, "p1", "secret"⟩)
          "ek").cache 29 (.error .storeErr) "ek").storeReads = 0 ∧
    (fetchEnrollmentKeyRecord
        (fetchEnrollmentKeyRecord [] 0 (.ok ⟨"ek", true, "p1", "secret"⟩)
          "ek").cache 29 (.error .storeErr) "ek").result
      = .ok ⟨"ek", true, "p1", "secret"⟩ :=
  (fetchEnrollmentKeyRecord_spec [] 0 29 "ek"
    (.ok ⟨"ek", true, "p1", "secret"⟩) (.error .storeErr)
    ⟨"ek", true, "p1", "secret"⟩ ⟨"ek", true, "p1", "secret"⟩).2.2.2
    rfl rfl (by decide)

/-- C8: a failed limiter acquisition returns the load-shedding error at
once with zero collaborator calls and the cache untouched; a successful
acquisition is recorded once and released exactly once, whatever the
outcome of every later step. -/
theorem handleEnroll_limiter_spec (acquireOk : Bool)
    (authRes vuaRes : Except Err Unit) (c : CacheT) (now : Int)
    (keyId : String) (storeRes : Except Err EnrollmentApiKey) (data : Body)
    (genId : String) (mintRes : Except Err ApiKey)
    (createRes : Except Err Unit) :
    (acquireOk = false →
      handleEnroll acquireOk authRes vuaRes c now keyId storeRes data genId
          mintRes createRes
        = (.error .limitErr, zeroEffects, c)) ∧
    (acquireOk = true →
      (handleEnroll acquireOk authRes vuaRes c now keyId storeRes data
          genId mintRes createRes).2.1.acquired = 1 ∧
      (handleEnroll acquireOk authRes vuaRes c now keyId storeRes data
          genId mintRes createRes).2.1.released = 1) := by
  constructor
  · intro h
    simp [handleEnroll, h]
  · intro h
    constructor <;> simp [handleEnroll, h]

/-- C8 witness: a saturated limiter sheds the request with zero effects,
and an admitted request acquires and releases the slot exactly once. -/
theorem handleEnroll_limiter_spec_witness :
    handleEnroll false (.ok ()) (.ok ()) [] 0 "ek" (.error .storeErr)
        .malformed "agent-1" (.error .mintErr) (.ok ())
      = (.error .limitErr, zeroEffects, []) ∧
    (handleEnroll true (.ok ()) (.ok ()) [] 0 "ek" (.error .storeErr)
        .malformed "agent-1" (.error .mintErr) (.ok ())).2.1.acquired
      = 1 ∧
    (handleEnroll true (.ok ()) (.ok ()) [] 0 "ek" (.error .storeErr)
        .malformed "agent-1" (.error .mintErr) (.ok ())).2.1.released
      = 1 :=
  ⟨(handleEnroll_limiter_spec false (.ok ()) (.ok ()) [] 0 "ek"
      (.error .storeErr) .malformed "agent-1" (.error .mintErr)
      (.ok ())).1 rfl,
   ((handleEnroll_limiter_spec true (.ok ()) (.ok ()) [] 0 "ek"
      (.error .storeErr) .malformed "agent-1" (.error .mintErr)
      (.ok ())).2 rfl).1,
   ((handleEnroll_limiter_spec true (.ok ()) (.ok ()) [] 0 "ek"
      (.error .storeErr) .malformed "agent-1" (.error .mintErr)
      (.ok ())).2 rfl).2⟩

/-- C10: a live cache entry is returned as-is with no store read and no
re-check of its active flag, and the inactive-record failure only
arises on the store-read path, so a record deactivated after being
cached is still accepted until its entry expires. -/
theorem fetch_cached_skips_active_check (c : CacheT) (now : Int)
    (id : String) (e : CacheEntry)
    (storeRes : Except Err EnrollmentApiKey)
    (h : cacheGet c id = some e) (hlive : now < e.expiresAt) :
    (fetchEnrollmentKeyRecord c now storeRes id).result = .ok e.record ∧
    (fetchEnrollmentKeyRecord c now storeRes id).storeReads = 0 ∧
    (∀ c2 now2 sr2 id2,
      (fetchEnrollmentKeyRecord c2 now2 sr2 id2).result
        = .error .recordInactive →
      (fetchEnrollmentKeyRecord c2 now2 sr2 id2).storeReads = 1) := by
  refine ⟨?_, ?_, ?_⟩
  · simp [fetchEnrollmentKeyRecord, getEnrollmentApiKey, h, hlive]
  · simp [fetchEnrollmentKeyRecord, getEnrollmentApiKey, h, hlive]
  · intro c2 now2 sr2 id2 hres
    cases hg : getEnrollmentApiKey c2 now2 id2 with
    | some key => simp [fetchEnrollmentKeyRecord, hg] at hres
    | none =>
      cases sr2 with
      | error e2 => simp [fetchEnrollmentKeyRecord, hg]
      | ok rec2 =>
        by_cases ha : rec2.active <;>
          simp [fetchEnrollmentKeyRecord, hg, ha]

/-- C10 witness: a cached record whose active flag is false is still
returned from a live cache entry with no store read. -/
theorem fetch_cached_skips_active_check_witness :
    (fetchEnrollmentKeyRecord [("ek", ⟨⟨"ek", false, "p1", "s"⟩, 1, 10⟩)]
        5 (.error .storeErr) "ek").result = .ok ⟨"ek", false, "p1", "s"⟩ ∧
    (fetchEnrollmentKeyRecord [("ek", ⟨⟨"ek", false, "p1", "s"⟩, 1, 10⟩)]
        5 (.error .storeErr) "ek").storeReads = 0 :=
  ⟨(fetch_cached_skips_active_check
      [("ek", ⟨⟨"ek", false, "p1", "s"⟩, 1, 10⟩)] 5 "ek"
      ⟨⟨"ek", false, "p1", "s"⟩, 1, 10⟩ (.error .storeErr) rfl
      (by decide)).1,
   (fetch_cached_skips_active_check
      [("ek", ⟨⟨"ek", false, "p1", "s"⟩, 1, 10⟩)] 5 "ek"
      ⟨⟨"ek", false, "p1", "s"⟩, 1, 10⟩ (.error .storeErr) rfl
      (by decide)).2.1⟩

end FleetSpec
